import Mathlib

/-
Verification development for the snake-game core in gameLogic.h.

The C++ source is shallowly embedded: each class becomes a structure, each
method a pure function (mutation becomes explicit state passing).  Machine
ints are modelled as Int (no arithmetic in the source comes anywhere near
overflow for the board sizes the claims concern).  The mt19937 random
source is modelled as an oracle stream of naturals consumed one value per
placement; uniform_int_distribution over an index range is modelled as the
drawn value reduced modulo the range size.  The claims settled here are
independent of the distribution of the random source.
-/

namespace SnakeGame

/-- Position on the board: (row, column), mirroring std::pair of ints. -/
abbrev Pos : Type := ℤ × ℤ

/-- Movement directions, mirroring enum Direction. -/
inductive Direction where
  | UP
  | DOWN
  | LEFT
  | RIGHT
  | NONE
deriving DecidableEq

/-- Cell tags, mirroring enum CellType. -/
inductive CellType where
  | EMPTY
  | SNAKE
  | FOOD
  | WALL
deriving DecidableEq

open Direction CellType

/-- Row-major list of all in-range cell positions of a rows-by-cols grid,
the iteration order of the loops in Board::getEmptyCells. -/
def idxList (rows cols : ℤ) : List Pos :=
  (List.range rows.toNat).flatMap
    (fun (r : ℕ) => (List.range cols.toNat).map (fun (c : ℕ) => ((r : ℤ), (c : ℤ))))

/-- The game board (class Board): the vector-of-vectors grid is embedded as a
total function from positions to cell tags, together with the dimensions. -/
structure Board where
  grid : Pos → CellType
  rows : ℤ
  cols : ℤ

namespace Board

/-- Board::initialize. -/
def create (rows cols : ℤ) : Board :=
  { grid := fun _ => EMPTY, rows := rows, cols := cols }

/-- Board::isInBounds. -/
def isInBounds (b : Board) (p : Pos) : Bool :=
  decide (0 ≤ p.1) && decide (p.1 < b.rows) && decide (0 ≤ p.2) && decide (p.2 < b.cols)

/-- Board::getCellType: WALL sentinel for out-of-bounds queries. -/
def getCellType (b : Board) (p : Pos) : CellType :=
  if b.isInBounds p then b.grid p else WALL

/-- Board::setCellType: a no-op outside bounds. -/
def setCellType (b : Board) (p : Pos) (t : CellType) : Board :=
  if b.isInBounds p then
    { b with grid := fun q => if q = p then t else b.grid q }
  else b

/-- Board::getEmptyCells: all EMPTY cells in row-major order. -/
def getEmptyCells (b : Board) : List Pos :=
  (idxList b.rows b.cols).filter (fun p => decide (b.grid p = EMPTY))

end Board

/-- Offset of the i-th initial segment from the start position, the switch
inside Snake::initialize (segments extend opposite the heading). -/
def segOffset (dir : Direction) (startPos : Pos) (i : ℕ) : Pos :=
  match dir with
  | RIGHT => (startPos.1, startPos.2 - (i : ℤ))
  | LEFT => (startPos.1, startPos.2 + (i : ℤ))
  | UP => (startPos.1 + (i : ℤ), startPos.2)
  | DOWN => (startPos.1 - (i : ℤ), startPos.2)
  | NONE => startPos

/-- The snake (class Snake): deque of segments, head first, plus the
pending-growth counter. -/
structure Snake where
  body : List Pos
  growthPending : ℤ

namespace Snake

/-- Snake::initialize: lays out the segments and marks them on the board. -/
def init (startPos : Pos) (length : ℤ) (dir : Direction) (b : Board) : Snake × Board :=
  let segs := (List.range length.toNat).map (segOffset dir startPos)
  (⟨segs, 0⟩, segs.foldl (fun bb p => bb.setCellType p SNAKE) b)

/-- Snake::move: push the new head; consume pending growth or pop the tail. -/
def move (sn : Snake) (newHead : Pos) (b : Board) : Snake × Board :=
  let b1 := b.setCellType newHead SNAKE
  if sn.growthPending > 0 then
    (⟨newHead :: sn.body, sn.growthPending - 1⟩, b1)
  else
    (⟨(newHead :: sn.body).dropLast, sn.growthPending⟩,
      b1.setCellType ((newHead :: sn.body).getLast (List.cons_ne_nil _ _)) EMPTY)

/-- Snake::grow. -/
def grow (sn : Snake) (amount : ℤ) : Snake :=
  { sn with growthPending := sn.growthPending + amount }

/-- Snake::checkSelfCollision: the loop starts at index 1, so every segment
except the current head is checked, the tail included. -/
def checkSelfCollision (sn : Snake) (p : Pos) : Bool :=
  (sn.body.drop 1).any (fun q => q == p)

/-- Snake::getHead: body.front().  The default value models the arbitrary
value an empty deque would yield; no reachable game state hits it. -/
def getHead (sn : Snake) : Pos :=
  sn.body.headD ((0 : ℤ), (0 : ℤ))

/-- Snake::hasPendingGrowth. -/
def hasPendingGrowth (sn : Snake) : Bool :=
  decide (sn.growthPending > 0)

end Snake

/-- Food state (class FoodManager): position plus existence flag.  The C++
field named exists is called present here (reserved word in Lean). -/
structure FoodManager where
  position : Pos
  present : Bool

namespace FoodManager

/-- FoodManager::placeRandom.  The random draw rng k is reduced modulo the
number of empty cells, modelling the uniform index distribution; when no
empty cell is left the existence flag is cleared and the board untouched. -/
def placeRandom (fm : FoodManager) (b : Board) (rng : ℕ → ℕ) (k : ℕ) :
    Board × FoodManager × ℕ :=
  let emptyCells := b.getEmptyCells
  if emptyCells.isEmpty then
    (b, { fm with present := false }, k)
  else
    let p := emptyCells.getD (rng k % emptyCells.length) ((0 : ℤ), (0 : ℤ))
    (b.setCellType p FOOD, ⟨p, true⟩, k + 1)

/-- FoodManager::remove. -/
def remove (fm : FoodManager) (b : Board) : Board × FoodManager :=
  if fm.present then
    (b.setCellType fm.position EMPTY, { fm with present := false })
  else (b, fm)

end FoodManager

namespace CollisionDetector

/-- CollisionDetector::isOutOfBounds. -/
def isOutOfBounds (p : Pos) (b : Board) : Bool :=
  !(b.isInBounds p)

/-- CollisionDetector::isWall. -/
def isWall (p : Pos) (b : Board) : Bool :=
  b.getCellType p == WALL

/-- CollisionDetector::isFood. -/
def isFood (p : Pos) (fm : FoodManager) : Bool :=
  fm.present && p == fm.position

end CollisionDetector

/-- Direction controller (class DirectionController): current and next
heading plus the single-slot atomic input mailbox. -/
structure DirectionController where
  current : Direction
  next : Direction
  atomicInput : Direction

namespace DirectionController

/-- DirectionController::isValidChange: the 180-degree reversal filter,
checked against the current heading. -/
def isValidChange (current newDir : Direction) : Bool :=
  if current == UP && newDir == DOWN then false
  else if current == DOWN && newDir == UP then false
  else if current == LEFT && newDir == RIGHT then false
  else if current == RIGHT && newDir == LEFT then false
  else true

/-- DirectionController::setInput: store into the mailbox (last writer wins). -/
def setInput (d : DirectionController) (dir : Direction) : DirectionController :=
  { d with atomicInput := dir }

/-- DirectionController::processInput: atomically take and clear the slot;
adopt the taken value when it is not NONE and passes the reversal check;
finally current becomes next. -/
def processInput (d : DirectionController) : DirectionController :=
  let inputDir := d.atomicInput
  if inputDir != NONE && isValidChange d.current inputDir then
    ⟨inputDir, inputDir, NONE⟩
  else
    ⟨d.next, d.next, NONE⟩

/-- DirectionController::getNextPosition. -/
def getNextPosition (d : DirectionController) (p : Pos) : Pos :=
  match d.current with
  | UP => (p.1 - 1, p.2)
  | DOWN => (p.1 + 1, p.2)
  | LEFT => (p.1, p.2 - 1)
  | RIGHT => (p.1, p.2 + 1)
  | NONE => p

/-- DirectionController::initialize: sets current and next headings. -/
def initDir (d0 : Direction) : DirectionController :=
  ⟨d0, d0, NONE⟩

end DirectionController

/-- struct GameState: the published snapshot value.  snakeLength mirrors the
int field holding snake.getLength(). -/
structure GameState where
  board : Pos → CellType
  rows : ℤ
  cols : ℤ
  score : ℤ
  gameOver : Bool
  food : Pos
  foodExists : Bool
  snake : List Pos
  snakeLength : ℕ

/-- Number of cells of a rows-by-cols grid carrying the tag t. -/
def cellsTagged (rows cols : ℤ) (g : Pos → CellType) (t : CellType) : ℕ :=
  ((idxList rows cols).filter (fun p => decide (g p = t))).length

/-- Number of SnakeBody-tagged cells on a board. -/
def countSnakeCells (b : Board) : ℕ :=
  cellsTagged b.rows b.cols b.grid SNAKE

/-- Number of SnakeBody-tagged cells recorded in a snapshot. -/
def countSnakeGS (g : GameState) : ℕ :=
  cellsTagged g.rows g.cols g.board SNAKE

/-- The orchestrator state (class SnakeGameLogic), with the random source as
an oracle stream plus a consumption counter. -/
structure SnakeGameLogic where
  board : Board
  snake : Snake
  food : FoodManager
  dir : DirectionController
  score : ℤ
  pointsPerFood : ℤ
  gameOver : Bool
  rng : ℕ → ℕ
  rngIdx : ℕ

namespace SnakeGameLogic

/-- The snapshot value StatePublisher::publish copies out of the current
simulation state. -/
def snapshotOf (s : SnakeGameLogic) : GameState :=
  { board := s.board.grid
    rows := s.board.rows
    cols := s.board.cols
    score := s.score
    gameOver := s.gameOver
    food := s.food.position
    foodExists := s.food.present
    snake := s.snake.body
    snakeLength := s.snake.body.length }

/-- The food-collision block of SnakeGameLogic::update: on a food hit, grow
the snake, add the points, and remove the food, all before the move. -/
def applyFoodStep (s : SnakeGameLogic) (newHead : Pos) : SnakeGameLogic :=
  if CollisionDetector.isFood newHead s.food then
    { s with
      snake := s.snake.grow 1
      score := s.score + s.pointsPerFood
      board := (s.food.remove s.board).1
      food := (s.food.remove s.board).2 }
  else s

/-- The snake.move call of SnakeGameLogic::update. -/
def applyMoveStep (s : SnakeGameLogic) (newHead : Pos) : SnakeGameLogic :=
  { s with
    snake := (s.snake.move newHead s.board).1
    board := (s.snake.move newHead s.board).2 }

/-- The food-replacement block of SnakeGameLogic::update: place new food
only when none is present. -/
def applyPlaceStep (s : SnakeGameLogic) : SnakeGameLogic :=
  if s.food.present then s
  else
    { s with
      board := (s.food.placeRandom s.board s.rng s.rngIdx).1
      food := (s.food.placeRandom s.board s.rng s.rngIdx).2.1
      rngIdx := (s.food.placeRandom s.board s.rng s.rngIdx).2.2 }

/-- The board-full win check and the final publish of SnakeGameLogic::update,
applied to the state after food handling, the move, and food replacement.
The returned list holds the snapshots published. -/
def tickFinish (s4 : SnakeGameLogic) : Bool × SnakeGameLogic × List GameState :=
  if !s4.food.present && !s4.snake.hasPendingGrowth then
    (false, { s4 with gameOver := true }, [snapshotOf { s4 with gameOver := true }])
  else
    (true, s4, [snapshotOf s4])

/-- Tail of SnakeGameLogic::update after the three terminal checks have
passed: food handling, the move, food replacement, the board-full win check,
and the final publish. -/
def tickAfterChecks (s1 : SnakeGameLogic) (newHead : Pos) :
    Bool × SnakeGameLogic × List GameState :=
  tickFinish (applyPlaceStep (applyMoveStep (applyFoodStep s1 newHead) newHead))

/-- SnakeGameLogic::update, one tick.  Returns the bool result, the new
state, and the list of snapshots published during the call. -/
def update (s : SnakeGameLogic) : Bool × SnakeGameLogic × List GameState :=
  if s.gameOver then (false, s, [])
  else
    let s1 : SnakeGameLogic := { s with dir := s.dir.processInput }
    let newHead := s1.dir.getNextPosition s1.snake.getHead
    if CollisionDetector.isOutOfBounds newHead s1.board then
      (false, { s1 with gameOver := true }, [snapshotOf { s1 with gameOver := true }])
    else if CollisionDetector.isWall newHead s1.board then
      (false, { s1 with gameOver := true }, [snapshotOf { s1 with gameOver := true }])
    else if s1.snake.checkSelfCollision newHead then
      (false, { s1 with gameOver := true }, [snapshotOf { s1 with gameOver := true }])
    else
      tickAfterChecks s1 newHead

/-- SnakeGameLogic::setDirection. -/
def setDirection (s : SnakeGameLogic) (d : Direction) : SnakeGameLogic :=
  { s with dir := s.dir.setInput d }

end SnakeGameLogic

/-- Parameters of SnakeGameLogic::initializeBoard. -/
structure InitParams where
  rows : ℤ
  cols : ℤ
  startingLength : ℤ
  pointsPerFood : ℤ
  initialDirection : Direction

/-- The initial segment layout produced by Snake::initialize from the
centered start position used by initializeBoard. -/
def initSegments (rows cols length : ℤ) (dir : Direction) : List Pos :=
  (List.range length.toNat).map (segOffset dir (rows / 2, cols / 2))

namespace SnakeGameLogic

/-- Construction of a fresh SnakeGameLogic followed by initializeBoard:
reset score and terminal flag, initialize board, direction controller and
snake (centered start), place the first food, and leave the state whose
snapshot is the first publish. -/
def initGame (pr : InitParams) (rng : ℕ → ℕ) : SnakeGameLogic :=
  let b0 := Board.create pr.rows pr.cols
  let startPos : Pos := (pr.rows / 2, pr.cols / 2)
  let sb := Snake.init startPos pr.startingLength pr.initialDirection b0
  let pf := FoodManager.placeRandom ⟨((0 : ℤ), (0 : ℤ)), false⟩ sb.2 rng 0
  { board := pf.1
    snake := sb.1
    food := pf.2.1
    dir := DirectionController.initDir pr.initialDirection
    score := 0
    pointsPerFood := pr.pointsPerFood
    gameOver := false
    rng := rng
    rngIdx := pf.2.2 }

end SnakeGameLogic

/-- States reachable through initializeBoard (with parameters satisfying P)
followed by any sequence of setDirection and update calls. -/
inductive Reaches (P : InitParams → Prop) : SnakeGameLogic → Prop where
  | start (pr : InitParams) (rng : ℕ → ℕ) (h : P pr) :
      Reaches P (SnakeGameLogic.initGame pr rng)
  | tick (s : SnakeGameLogic) (h : Reaches P s) : Reaches P (s.update).2.1
  | steer (s : SnakeGameLogic) (d : Direction) (h : Reaches P s) :
      Reaches P (s.setDirection d)

/-- No restriction on the initialization parameters. -/
def anyInit (_ : InitParams) : Prop := True

/-- The initial heading is a real direction. -/
def goodDir (pr : InitParams) : Prop := pr.initialDirection ≠ NONE

/-- Non-degenerate initialization: a real initial heading and an initial
snake layout that fits on the board. -/
def goodInit (pr : InitParams) : Prop :=
  pr.initialDirection ≠ NONE ∧
  ∀ p ∈ initSegments pr.rows pr.cols pr.startingLength pr.initialDirection,
    (Board.create pr.rows pr.cols).isInBounds p = true

/-- The double-buffered publisher (class StatePublisher).  The two heap
buffers are modelled by the two GameState fields; writeIsA says which one
the writeBuffer pointer currently designates, currentIsA which one the
atomic currentState reference designates.  A reader's shared_ptr is
modelled by the identity (Bool) of the buffer it points at. -/
structure StatePublisher where
  bufA : GameState
  bufB : GameState
  writeIsA : Bool
  currentIsA : Bool

/-- The default-constructed GameState the publisher buffers start as. -/
def emptyGameState : GameState :=
  { board := fun _ => EMPTY
    rows := 0
    cols := 0
    score := 0
    gameOver := false
    food := ((0 : ℤ), (0 : ℤ))
    foodExists := false
    snake := []
    snakeLength := 0 }

namespace StatePublisher

/-- StatePublisher::StatePublisher: two fresh buffers; currentState is
stored pointing at the write buffer. -/
def construct : StatePublisher :=
  ⟨emptyGameState, emptyGameState, true, true⟩

/-- StatePublisher::publish with the already-assembled snapshot value g:
overwrite the write buffer, point currentState at it, then swap the
write/read roles. -/
def publish (ps : StatePublisher) (g : GameState) : StatePublisher :=
  if ps.writeIsA then ⟨g, ps.bufB, false, true⟩ else ⟨ps.bufA, g, true, false⟩

/-- Dereference a held buffer reference in the publisher's current state. -/
def bufOf (ps : StatePublisher) (isA : Bool) : GameState :=
  if isA then ps.bufA else ps.bufB

/-- StatePublisher::getState: load the current snapshot reference. -/
def getState (ps : StatePublisher) : GameState :=
  ps.bufOf ps.currentIsA

/-- The buffer identity a getState call hands to a reader. -/
def getStateRef (ps : StatePublisher) : Bool :=
  ps.currentIsA

end StatePublisher

end SnakeGame

namespace SnakeGame

open Direction CellType

section BoardLemmas

lemma Board.rows_setCellType (b : Board) (p : Pos) (t : CellType) :
    (b.setCellType p t).rows = b.rows := by
  unfold Board.setCellType; split <;> rfl

lemma Board.cols_setCellType (b : Board) (p : Pos) (t : CellType) :
    (b.setCellType p t).cols = b.cols := by
  unfold Board.setCellType; split <;> rfl

lemma Board.isInBounds_setCellType (b : Board) (p : Pos) (t : CellType) (q : Pos) :
    (b.setCellType p t).isInBounds q = b.isInBounds q := by
  unfold Board.isInBounds
  rw [Board.rows_setCellType, Board.cols_setCellType]

lemma Board.getCellType_setCellType (b : Board) (p : Pos) (t : CellType) (q : Pos) :
    (b.setCellType p t).getCellType q =
      if q = p ∧ b.isInBounds p = true then t else b.getCellType q := by
  unfold Board.setCellType Board.getCellType
  by_cases hp : b.isInBounds p
  · simp only [hp, if_true]
    have hb : ({ b with grid := fun q => if q = p then t else b.grid q } : Board).isInBounds q
        = b.isInBounds q := rfl
    rw [hb]
    by_cases hq : b.isInBounds q
    · by_cases hqp : q = p <;> simp [hqp, hp, hq]
    · have hne : q ≠ p := by
        rintro rfl; exact hq hp
      have hqp : ¬(q = p ∧ b.isInBounds p = true) := by
        rintro ⟨rfl, _⟩; exact hq hp
      simp [hq, hqp, hne]
  · have hqp : ¬(q = p ∧ b.isInBounds p = true) := by
      rintro ⟨_, h⟩; exact hp h
    simp [hp, hqp]

lemma Board.getCellType_eq_grid {b : Board} {q : Pos} (h : b.isInBounds q = true) :
    b.getCellType q = b.grid q := by
  unfold Board.getCellType; rw [h]; simp

lemma Board.isInBounds_of_getCellType_ne_wall {b : Board} {q : Pos}
    (h : b.getCellType q ≠ WALL) : b.isInBounds q = true := by
  unfold Board.getCellType at h
  by_cases hq : b.isInBounds q = true
  · exact hq
  · simp [hq] at h

lemma mem_idxList {rows cols : ℤ} {p : Pos} :
    p ∈ idxList rows cols ↔ 0 ≤ p.1 ∧ p.1 < rows ∧ 0 ≤ p.2 ∧ p.2 < cols := by
  simp only [idxList, List.mem_flatMap, List.mem_map, List.mem_range]
  constructor
  · rintro ⟨r, hr, c, hc, rfl⟩
    dsimp only
    omega
  · rintro ⟨h1, h2, h3, h4⟩
    exact ⟨p.1.toNat, by omega, p.2.toNat, by omega,
      by rw [Int.toNat_of_nonneg h1, Int.toNat_of_nonneg h3]⟩

lemma mem_idxList_iff_isInBounds {b : Board} {p : Pos} :
    p ∈ idxList b.rows b.cols ↔ b.isInBounds p = true := by
  rw [mem_idxList]
  unfold Board.isInBounds
  simp only [Bool.and_eq_true, decide_eq_true_eq]
  tauto

lemma nodup_idxList (rows cols : ℤ) : (idxList rows cols).Nodup := by
  unfold idxList
  rw [List.nodup_flatMap]
  constructor
  · intro r _
    refine List.Nodup.map ?_ (List.nodup_range _)
    intro a b h
    simpa using congrArg Prod.snd h
  · refine (List.pairwise_lt_range _).imp ?_
    intro a b hab
    intro x hxa hxb
    simp only [List.mem_map, List.mem_range] at hxa hxb
    obtain ⟨c, _, rfl⟩ := hxa
    obtain ⟨c', _, h⟩ := hxb
    have h1 := congrArg Prod.fst h
    dsimp only at h1
    omega

lemma mem_getEmptyCells {b : Board} {q : Pos} :
    q ∈ b.getEmptyCells ↔ b.isInBounds q = true ∧ b.grid q = EMPTY := by
  unfold Board.getEmptyCells
  rw [List.mem_filter, mem_idxList_iff_isInBounds]
  simp

end BoardLemmas

section ListHelpers

lemma getD_mem_of_lt {α : Type _} (l : List α) (n : ℕ) (d : α) (h : n < l.length) :
    l.getD n d ∈ l := by
  induction l generalizing n with
  | nil => simp at h
  | cons a t ih =>
    cases n with
    | zero => simp [List.getD]
    | succ m =>
      simp only [List.getD_cons_succ]
      exact List.mem_cons_of_mem _ (ih m (by simpa using h))

lemma getLastD_mem {α : Type _} : ∀ (l : List α) (d : α), l ≠ [] → l.getLastD d ∈ l
  | [a], d, _ => by simp [List.getLastD]
  | a :: b :: t, d, _ => by
      rw [List.getLastD_cons]
      exact List.mem_cons_of_mem _ (getLastD_mem (b :: t) a (by simp))

lemma getLastD_mem_drop_one {α : Type _} {l : List α} (d : α) (h : 2 ≤ l.length) :
    l.getLastD d ∈ l.drop 1 := by
  match l, h with
  | a :: b :: t, _ =>
    rw [List.getLastD_cons]
    exact getLastD_mem (b :: t) a (by simp)

lemma getLast_not_mem_dropLast {α : Type _} {l : List α} (hnd : l.Nodup) (h : l ≠ []) :
    l.getLast h ∉ l.dropLast := by
  have hdecomp := List.dropLast_append_getLast h
  intro hmem
  have hnot : ¬(l.dropLast ++ [l.getLast h]).Nodup := by
    rw [List.nodup_append]
    rintro ⟨-, -, hdis⟩
    exact hdis hmem (by simp)
  rw [hdecomp] at hnot
  exact hnot hnd

lemma mem_iff_mem_dropLast_or_getLast {α : Type _} {l : List α} (h : l ≠ []) (a : α) :
    a ∈ l ↔ a ∈ l.dropLast ∨ a = l.getLast h := by
  conv_lhs => rw [← List.dropLast_append_getLast h]
  simp [List.mem_append]

end ListHelpers

section SnakeDirLemmas

lemma Snake.checkSelfCollision_iff (sn : Snake) (p : Pos) :
    sn.checkSelfCollision p = true ↔ p ∈ sn.body.drop 1 := by
  unfold Snake.checkSelfCollision
  rw [List.any_eq_true]
  constructor
  · rintro ⟨q, hq, he⟩
    rw [beq_iff_eq] at he
    rwa [he] at hq
  · intro hp
    exact ⟨p, hp, by simp⟩

lemma DirectionController.getNextPosition_ne {d : DirectionController}
    (h : d.current ≠ NONE) (p : Pos) : d.getNextPosition p ≠ p := by
  unfold DirectionController.getNextPosition
  cases hc : d.current
  case NONE => exact absurd hc h
  all_goals
    intro he
    have h1 := congrArg Prod.fst he
    have h2 := congrArg Prod.snd he
    dsimp only at h1 h2
    omega

lemma DirectionController.processInput_atomicInput (d : DirectionController) :
    (d.processInput).atomicInput = NONE := by
  simp only [DirectionController.processInput]
  split <;> rfl

lemma DirectionController.processInput_next_eq (d : DirectionController) :
    (d.processInput).next = (d.processInput).current := by
  simp only [DirectionController.processInput]
  split <;> rfl

lemma DirectionController.processInput_current (d : DirectionController)
    (h : d.next = d.current) :
    (d.processInput).current =
      (if d.atomicInput ≠ NONE ∧ DirectionController.isValidChange d.current d.atomicInput = true
       then d.atomicInput else d.current) := by
  unfold DirectionController.processInput
  by_cases hc : (d.atomicInput != NONE && DirectionController.isValidChange d.current d.atomicInput) = true
  · have hc2 : d.atomicInput ≠ NONE ∧ DirectionController.isValidChange d.current d.atomicInput = true := by
      simpa [bne_iff_ne] using hc
    simp [hc, hc2]
  · have hc2 : ¬(d.atomicInput ≠ NONE ∧ DirectionController.isValidChange d.current d.atomicInput = true) := by
      simpa [bne_iff_ne] using hc
    simp [hc, hc2, h]

lemma DirectionController.processInput_current_ne_none {d : DirectionController}
    (h : d.next = d.current) (h2 : d.current ≠ NONE) :
    (d.processInput).current ≠ NONE := by
  rw [DirectionController.processInput_current d h]
  split
  case isTrue hcond => exact hcond.1
  case isFalse => exact h2

end SnakeDirLemmas

section MoveLemmas

/-- The board cells tagged SNAKE are exactly the snake's segments. -/
def cellBij (b : Board) (body : List Pos) : Prop :=
  ∀ p : Pos, b.getCellType p = SNAKE ↔ p ∈ body

lemma cellBij.inBounds_of_mem {b : Board} {body : List Pos} (h : cellBij b body)
    {p : Pos} (hp : p ∈ body) : b.isInBounds p = true := by
  refine Board.isInBounds_of_getCellType_ne_wall ?_
  rw [(h p).mpr hp]
  simp

lemma Snake.move_spec_grow (sn : Snake) (nh : Pos) (b : Board) (h : sn.growthPending > 0) :
    (sn.move nh b).1.body = nh :: sn.body ∧
    (sn.move nh b).1.growthPending = sn.growthPending - 1 ∧
    (sn.move nh b).2 = b.setCellType nh SNAKE := by
  simp [Snake.move, h]

lemma Snake.move_spec_nogrow (sn : Snake) (nh : Pos) (b : Board) (h : ¬sn.growthPending > 0) :
    (sn.move nh b).1.body = (nh :: sn.body).dropLast ∧
    (sn.move nh b).1.growthPending = sn.growthPending ∧
    (sn.move nh b).2 = (b.setCellType nh SNAKE).setCellType
      ((nh :: sn.body).getLast (List.cons_ne_nil _ _)) EMPTY := by
  simp [Snake.move, h]

lemma Snake.length_move (sn : Snake) (nh : Pos) (b : Board) :
    (sn.move nh b).1.body.length =
      (if sn.growthPending > 0 then sn.body.length + 1 else sn.body.length) := by
  by_cases h : sn.growthPending > 0
  · simp [Snake.move, h]
  · simp [Snake.move, h]

lemma Snake.move_nodup {sn : Snake} {b : Board} {nh : Pos}
    (hnd : sn.body.Nodup) (hnb : nh ∉ sn.body) :
    (sn.move nh b).1.body.Nodup := by
  by_cases h : sn.growthPending > 0
  · rw [(Snake.move_spec_grow sn nh b h).1]
    exact List.nodup_cons.mpr ⟨hnb, hnd⟩
  · rw [(Snake.move_spec_nogrow sn nh b h).1]
    cases hbody : sn.body with
    | nil => simp
    | cons x xs =>
      rw [hbody] at hnd hnb
      rw [List.dropLast_cons₂]
      refine List.nodup_cons.mpr ⟨?_, ?_⟩
      · intro hmem
        exact hnb (List.dropLast_subset _ hmem)
      · exact hnd.sublist (List.dropLast_sublist _)

lemma Snake.move_cellBij {sn : Snake} {b : Board} {nh : Pos}
    (hnd : sn.body.Nodup)
    (hbij : cellBij b sn.body)
    (hnb : nh ∉ sn.body)
    (hin : b.isInBounds nh = true) :
    cellBij (sn.move nh b).2 (sn.move nh b).1.body ∧
    (∀ q : Pos, q ≠ nh → q ∉ sn.body → (sn.move nh b).2.getCellType q = b.getCellType q) := by
  obtain ⟨body, gp⟩ := sn
  dsimp only at hnd hbij hnb ⊢
  by_cases h : gp > 0
  · obtain ⟨hb1, -, hb2⟩ := Snake.move_spec_grow ⟨body, gp⟩ nh b h
    rw [hb1, hb2]
    constructor
    · intro p
      rw [Board.getCellType_setCellType]
      by_cases hp : p = nh
      · simp [hp, hin]
      · simp only [hp, false_and, if_false, List.mem_cons]
        rw [hbij p]
        tauto
    · intro q hq _
      rw [Board.getCellType_setCellType]
      simp [hq]
  · obtain ⟨hb1, -, hb2⟩ := Snake.move_spec_nogrow ⟨body, gp⟩ nh b h
    rw [hb1, hb2]
    cases body with
    | nil =>
      have hlast : ((nh :: ([] : List Pos)).getLast (List.cons_ne_nil _ _)) = nh := by
        simp
      rw [hlast]
      constructor
      · intro p
        rw [Board.getCellType_setCellType, Board.getCellType_setCellType,
          Board.isInBounds_setCellType]
        by_cases hp : p = nh
        · simp [hp, hin]
        · simp only [hp, false_and, if_false]
          rw [hbij p]
          simp
      · intro q hq _
        rw [Board.getCellType_setCellType, Board.getCellType_setCellType,
          Board.isInBounds_setCellType]
        simp [hq]
    | cons x xs =>
      have hxs : x :: xs ≠ [] := by simp
      have hlast : ((nh :: x :: xs).getLast (List.cons_ne_nil _ _)) = (x :: xs).getLast hxs :=
        List.getLast_cons hxs
      have htmem : (x :: xs).getLast hxs ∈ x :: xs := List.getLast_mem hxs
      have htin : b.isInBounds ((x :: xs).getLast hxs) = true := hbij.inBounds_of_mem htmem
      have htnh : (x :: xs).getLast hxs ≠ nh := by
        intro hcontra
        exact hnb (hcontra ▸ htmem)
      rw [hlast, List.dropLast_cons₂]
      constructor
      · intro p
        rw [Board.getCellType_setCellType, Board.getCellType_setCellType,
          Board.isInBounds_setCellType]
        by_cases hpt : p = (x :: xs).getLast hxs
        · simp only [hpt, htin, and_true, if_true]
          constructor
          · intro hcontra
            exact absurd hcontra (by simp)
          · intro hmem
            rcases List.mem_cons.mp hmem with hc | hc
            · exact absurd hc htnh
            · exact absurd hc (getLast_not_mem_dropLast hnd hxs)
        · simp only [hpt, false_and, if_false]
          by_cases hp : p = nh
          · simp [hp, hin]
          · simp only [hp, false_and, if_false]
            rw [hbij p, mem_iff_mem_dropLast_or_getLast hxs p, List.mem_cons]
            tauto
      · intro q hq hqb
        have hqt : q ≠ (x :: xs).getLast hxs := by
          intro hcontra
          exact hqb (hcontra ▸ htmem)
        rw [Board.getCellType_setCellType, Board.getCellType_setCellType,
          Board.isInBounds_setCellType]
        simp [hq, hqt]

end MoveLemmas

section FoodLemmas

lemma FoodManager.placeRandom_cases (fm : FoodManager) (b : Board) (rng : ℕ → ℕ) (k : ℕ) :
    (fm.placeRandom b rng k = (b, { fm with present := false }, k)) ∨
    (∃ p, p ∈ b.getEmptyCells ∧
      fm.placeRandom b rng k = (b.setCellType p FOOD, ⟨p, true⟩, k + 1)) := by
  unfold FoodManager.placeRandom
  by_cases he : b.getEmptyCells.isEmpty
  · left
    simp [he]
  · right
    refine ⟨b.getEmptyCells.getD (rng k % b.getEmptyCells.length) ((0 : ℤ), (0 : ℤ)), ?_, ?_⟩
    · apply getD_mem_of_lt
      apply Nat.mod_lt
      cases hl : b.getEmptyCells with
      | nil => rw [hl] at he; simp at he
      | cons a t => simp [hl]
    · simp [he]

lemma placeRandom_cellBij {fm : FoodManager} {b : Board} {rng : ℕ → ℕ} {k : ℕ}
    {body : List Pos} (hbij : cellBij b body) :
    cellBij (fm.placeRandom b rng k).1 body ∧
    ((fm.placeRandom b rng k).2.1.present = true →
      (fm.placeRandom b rng k).1.getCellType (fm.placeRandom b rng k).2.1.position = FOOD) ∧
    (∀ q : Pos, (fm.placeRandom b rng k).1.isInBounds q = b.isInBounds q) := by
  rcases FoodManager.placeRandom_cases fm b rng k with hc | ⟨p, hp, hc⟩
  · rw [hc]
    refine ⟨hbij, ?_, fun _ => rfl⟩
    intro hcontra
    simp at hcontra
  · rw [hc]
    obtain ⟨hpin, hpempty⟩ := mem_getEmptyCells.mp hp
    have hpnb : p ∉ body := by
      intro hmem
      have := (hbij p).mpr hmem
      rw [Board.getCellType_eq_grid hpin, hpempty] at this
      exact absurd this (by simp)
    refine ⟨?_, ?_, ?_⟩
    · intro q
      rw [Board.getCellType_setCellType]
      by_cases hq : q = p
      · simp only [hq, hpin, and_true, if_true]
        constructor
        · intro hcontra; exact absurd hcontra (by simp)
        · intro hmem; exact absurd hmem hpnb
      · simp only [hq, false_and, if_false]
        exact hbij q
    · intro _
      rw [Board.getCellType_setCellType]
      simp [hpin]
    · intro q
      exact Board.isInBounds_setCellType b p FOOD q

lemma remove_cellBij {fm : FoodManager} {b : Board} {body : List Pos}
    (hbij : cellBij b body)
    (hfm : fm.present = true → b.getCellType fm.position = FOOD) :
    cellBij (fm.remove b).1 body ∧
    (fm.remove b).2.present = false ∧
    (∀ q : Pos, (fm.remove b).1.isInBounds q = b.isInBounds q) ∧
    (∀ q : Pos, q ≠ fm.position → (fm.remove b).1.getCellType q = b.getCellType q) := by
  unfold FoodManager.remove
  by_cases hp : fm.present
  · have hcell := hfm hp
    have hposnb : fm.position ∉ body := by
      intro hmem
      have := (hbij fm.position).mpr hmem
      rw [hcell] at this
      exact absurd this (by simp)
    simp only [hp, if_true]
    refine ⟨?_, by trivial, ?_, ?_⟩
    · intro q
      rw [Board.getCellType_setCellType]
      by_cases hq : q = fm.position
      · have hinpos : b.isInBounds fm.position = true :=
          Board.isInBounds_of_getCellType_ne_wall (by rw [hcell]; simp)
        simp only [hq, hinpos, and_true, if_true]
        constructor
        · intro hcontra
          exact absurd hcontra (by simp)
        · intro hmem
          exact absurd hmem hposnb
      · simp only [hq, false_and, if_false]
        exact hbij q
    · intro q
      exact Board.isInBounds_setCellType b fm.position EMPTY q
    · intro q hq
      rw [Board.getCellType_setCellType]
      simp [hq]
  · have hp2 : fm.present = false := by
      cases hfmp : fm.present
      · rfl
      · exact absurd hfmp hp
    simp only [hp, if_false]
    exact ⟨hbij, hp2, fun _ => rfl, fun _ _ => rfl⟩

end FoodLemmas

section Invariants

/-- The inductive invariant of reachable (well-initialized) game states: the
heading is a real direction and agrees with the next field, no growth is
pending between ticks, the segments are pairwise distinct, the SNAKE cells
are exactly the segments, and a present food sits on a FOOD cell. -/
structure StateInv (s : SnakeGameLogic) : Prop where
  cur : s.dir.current ≠ NONE
  next : s.dir.next = s.dir.current
  gp : s.snake.growthPending = 0
  nodup : s.snake.body.Nodup
  bij : cellBij s.board s.snake.body
  food : s.food.present = true → s.board.getCellType s.food.position = FOOD

/-- The weaker invariant needing only a real initial heading. -/
structure NodupInv (s : SnakeGameLogic) : Prop where
  cur : s.dir.current ≠ NONE
  next : s.dir.next = s.dir.current
  nodup : s.snake.body.Nodup

lemma SnakeGameLogic.applyFoodStep_dir (s : SnakeGameLogic) (nh : Pos) :
    (s.applyFoodStep nh).dir = s.dir := by
  unfold SnakeGameLogic.applyFoodStep; split <;> rfl

lemma SnakeGameLogic.applyFoodStep_body (s : SnakeGameLogic) (nh : Pos) :
    (s.applyFoodStep nh).snake.body = s.snake.body := by
  unfold SnakeGameLogic.applyFoodStep Snake.grow; split <;> rfl

lemma SnakeGameLogic.applyPlaceStep_dir (s : SnakeGameLogic) :
    (s.applyPlaceStep).dir = s.dir := by
  unfold SnakeGameLogic.applyPlaceStep; split <;> rfl

lemma SnakeGameLogic.applyPlaceStep_snake (s : SnakeGameLogic) :
    (s.applyPlaceStep).snake = s.snake := by
  unfold SnakeGameLogic.applyPlaceStep; split <;> rfl

lemma SnakeGameLogic.applyPlaceStep_score (s : SnakeGameLogic) :
    (s.applyPlaceStep).score = s.score := by
  unfold SnakeGameLogic.applyPlaceStep; split <;> rfl

lemma SnakeGameLogic.applyPlaceStep_gameOver (s : SnakeGameLogic) :
    (s.applyPlaceStep).gameOver = s.gameOver := by
  unfold SnakeGameLogic.applyPlaceStep; split <;> rfl

lemma isInBounds_of_not_oob {p : Pos} {b : Board}
    (h : ¬CollisionDetector.isOutOfBounds p b = true) : b.isInBounds p = true := by
  unfold CollisionDetector.isOutOfBounds at h
  cases hb : b.isInBounds p
  · rw [hb] at h; simp at h
  · rfl

lemma nh_not_mem_body {sn : Snake} {d : DirectionController}
    (hd : d.current ≠ NONE)
    (hcsc : ¬sn.checkSelfCollision (d.getNextPosition sn.getHead) = true) :
    d.getNextPosition sn.getHead ∉ sn.body := by
  intro hmem
  cases hbody : sn.body with
  | nil => rw [hbody] at hmem; simp at hmem
  | cons x xs =>
    have hne := DirectionController.getNextPosition_ne hd sn.getHead
    have hhead : sn.getHead = x := by unfold Snake.getHead; rw [hbody]; rfl
    rw [hbody] at hmem
    rcases List.mem_cons.mp hmem with hc | hc
    · exact hne (hc.trans hhead.symm)
    · apply hcsc
      rw [Snake.checkSelfCollision_iff, hbody]
      simpa using hc

lemma moveAndPlace_StateInv {s2 : SnakeGameLogic} {nh : Pos}
    (hcur : s2.dir.current ≠ NONE)
    (hnext : s2.dir.next = s2.dir.current)
    (hnd : s2.snake.body.Nodup)
    (hbij : cellBij s2.board s2.snake.body)
    (hfood2 : s2.food.present = true →
      nh ≠ s2.food.position ∧ s2.board.getCellType s2.food.position = FOOD)
    (hnb : nh ∉ s2.snake.body)
    (hin : s2.board.isInBounds nh = true)
    (hgp : s2.snake.growthPending = 0 ∨ s2.snake.growthPending = 1) :
    StateInv (SnakeGameLogic.applyPlaceStep (s2.applyMoveStep nh)) := by
  obtain ⟨hbij3, hpres⟩ := Snake.move_cellBij hnd hbij hnb hin
  have hnd3 := @Snake.move_nodup s2.snake s2.board nh hnd hnb
  have hgp3 : (s2.snake.move nh s2.board).1.growthPending = 0 := by
    rcases hgp with h0 | h1
    · have := (Snake.move_spec_nogrow s2.snake nh s2.board (by omega)).2.1
      omega
    · have := (Snake.move_spec_grow s2.snake nh s2.board (by omega)).2.1
      omega
  have hfood3 : s2.food.present = true →
      (s2.snake.move nh s2.board).2.getCellType s2.food.position = FOOD := by
    intro hp
    obtain ⟨hne, hcell⟩ := hfood2 hp
    have hfnb : s2.food.position ∉ s2.snake.body := by
      intro hmem
      have hcontra := (hbij s2.food.position).mpr hmem
      rw [hcell] at hcontra
      exact absurd hcontra (by simp)
    rw [hpres s2.food.position (Ne.symm hne) hfnb]
    exact hcell
  unfold SnakeGameLogic.applyPlaceStep SnakeGameLogic.applyMoveStep
  by_cases hp3 : s2.food.present = true
  · simp only [hp3, if_true]
    exact ⟨hcur, hnext, hgp3, hnd3, hbij3, fun _ => hfood3 hp3⟩
  · simp only [hp3, if_false]
    obtain ⟨hbijP, hfoodP, hboundsP⟩ :=
      @placeRandom_cellBij s2.food ((s2.snake.move nh s2.board).2) s2.rng s2.rngIdx _ hbij3
    exact ⟨hcur, hnext, hgp3, hnd3, hbijP, hfoodP⟩

lemma tickAfterChecks_StateInv {s1 : SnakeGameLogic} {nh : Pos}
    (hcur : s1.dir.current ≠ NONE)
    (hnext : s1.dir.next = s1.dir.current)
    (hgp : s1.snake.growthPending = 0)
    (hnd : s1.snake.body.Nodup)
    (hbij : cellBij s1.board s1.snake.body)
    (hfood : s1.food.present = true → s1.board.getCellType s1.food.position = FOOD)
    (hnb : nh ∉ s1.snake.body)
    (hin : s1.board.isInBounds nh = true) :
    StateInv (s1.tickAfterChecks nh).2.1 := by
  have hs4 : StateInv (SnakeGameLogic.applyPlaceStep ((s1.applyFoodStep nh).applyMoveStep nh)) := by
    by_cases hf : CollisionDetector.isFood nh s1.food = true
    · have hs2 : s1.applyFoodStep nh =
          { s1 with
            snake := s1.snake.grow 1
            score := s1.score + s1.pointsPerFood
            board := (s1.food.remove s1.board).1
            food := (s1.food.remove s1.board).2 } := by
        unfold SnakeGameLogic.applyFoodStep
        rw [if_pos hf]
      rw [hs2]
      obtain ⟨hbijR, hpresR, hboundsR, hcellR⟩ := remove_cellBij hbij hfood
      refine moveAndPlace_StateInv hcur hnext hnd hbijR ?_ hnb ?_ ?_
      · intro hp
        rw [hpresR] at hp
        exact absurd hp (by simp)
      · rw [hboundsR]
        exact hin
      · right
        show s1.snake.growthPending + 1 = 1
        omega
    · have hs2 : s1.applyFoodStep nh = s1 := by
        unfold SnakeGameLogic.applyFoodStep
        rw [if_neg hf]
      rw [hs2]
      refine moveAndPlace_StateInv hcur hnext hnd hbij ?_ hnb hin (Or.inl hgp)
      intro hp
      refine ⟨?_, hfood hp⟩
      intro heq
      apply hf
      unfold CollisionDetector.isFood
      rw [hp, heq]
      simp
  unfold SnakeGameLogic.tickAfterChecks SnakeGameLogic.tickFinish
  split
  · exact ⟨hs4.cur, hs4.next, hs4.gp, hs4.nodup, hs4.bij, hs4.food⟩
  · exact hs4

lemma update_gameOver_eq {s : SnakeGameLogic} (h : s.gameOver = true) :
    s.update = (false, s, []) := by
  unfold SnakeGameLogic.update
  rw [if_pos h]

lemma update_StateInv {s : SnakeGameLogic} (h : StateInv s) : StateInv (s.update).2.1 := by
  by_cases hgo : s.gameOver = true
  · rw [update_gameOver_eq hgo]
    exact h
  · have hgo2 : s.gameOver = false := by
      cases hg : s.gameOver
      · rfl
      · exact absurd hg hgo
    have hcur1 : (s.dir.processInput).current ≠ NONE :=
      DirectionController.processInput_current_ne_none h.next h.cur
    have hnext1 := DirectionController.processInput_next_eq s.dir
    unfold SnakeGameLogic.update
    rw [if_neg hgo]
    simp only []
    split_ifs with h1 h2 h3
    · exact ⟨hcur1, hnext1, h.gp, h.nodup, h.bij, h.food⟩
    · exact ⟨hcur1, hnext1, h.gp, h.nodup, h.bij, h.food⟩
    · exact ⟨hcur1, hnext1, h.gp, h.nodup, h.bij, h.food⟩
    · refine tickAfterChecks_StateInv hcur1 hnext1 h.gp h.nodup h.bij h.food ?_ ?_
      · exact nh_not_mem_body hcur1 h3
      · exact isInBounds_of_not_oob h1
end Invariants

section InitLemmas

lemma markFold_isInBounds (l : List Pos) (b : Board) (q : Pos) :
    ((l.foldl (fun bb p => bb.setCellType p SNAKE) b).isInBounds q) = b.isInBounds q := by
  induction l generalizing b with
  | nil => rfl
  | cons p tl ih =>
    rw [List.foldl_cons, ih, Board.isInBounds_setCellType]

lemma getCellType_markFold (l : List Pos) (b : Board) (q : Pos) :
    ((l.foldl (fun bb p => bb.setCellType p SNAKE) b).getCellType q) =
      if q ∈ l ∧ b.isInBounds q = true then SNAKE else b.getCellType q := by
  induction l generalizing b with
  | nil => simp
  | cons p tl ih =>
    rw [List.foldl_cons, ih, Board.isInBounds_setCellType, Board.getCellType_setCellType]
    by_cases hq : b.isInBounds q = true
    · by_cases hmem : q ∈ tl
      · simp [hmem, hq]
      · by_cases hqp : q = p
        · have hpin : b.isInBounds p = true := hqp ▸ hq
          simp [hmem, hqp, hq, hpin]
        · simp [hmem, hqp, hq, List.mem_cons]
    · by_cases hqp : q = p
      · subst hqp
        simp [hq]
      · simp [hq, hqp]

lemma initSegments_nodup (rows cols length : ℤ) {dir : Direction} (h : dir ≠ NONE) :
    (initSegments rows cols length dir).Nodup := by
  unfold initSegments
  cases dir
  case NONE => exact absurd rfl h
  all_goals
    refine List.Nodup.map ?_ (List.nodup_range _)
  all_goals
    intro a b hab
    have h1 := congrArg Prod.fst hab
    have h2 := congrArg Prod.snd hab
    simp only [segOffset] at h1 h2
    omega

lemma initGame_StateInv {pr : InitParams} (rng : ℕ → ℕ) (h : goodInit pr) :
    StateInv (SnakeGameLogic.initGame pr rng) := by
  obtain ⟨hdir, hbounds⟩ := h
  have hb0ne : ∀ p : Pos, (Board.create pr.rows pr.cols).getCellType p ≠ SNAKE := by
    intro p
    unfold Board.create Board.getCellType
    split <;> simp
  have hbm : cellBij
      (Snake.init (pr.rows / 2, pr.cols / 2) pr.startingLength pr.initialDirection
        (Board.create pr.rows pr.cols)).2
      (initSegments pr.rows pr.cols pr.startingLength pr.initialDirection) := by
    intro p
    show ((initSegments pr.rows pr.cols pr.startingLength pr.initialDirection).foldl
        (fun bb q => bb.setCellType q SNAKE) (Board.create pr.rows pr.cols)).getCellType p
        = SNAKE ↔ _
    rw [getCellType_markFold]
    constructor
    · by_cases hc : p ∈ initSegments pr.rows pr.cols pr.startingLength pr.initialDirection ∧
          (Board.create pr.rows pr.cols).isInBounds p = true
      · intro _
        exact hc.1
      · intro hcontra
        rw [if_neg hc] at hcontra
        exact absurd hcontra (hb0ne p)
    · intro hmem
      rw [if_pos ⟨hmem, hbounds p hmem⟩]
  obtain ⟨hbijP, hfoodP, -⟩ :=
    @placeRandom_cellBij (⟨((0 : ℤ), (0 : ℤ)), false⟩ : FoodManager)
      ((Snake.init (pr.rows / 2, pr.cols / 2) pr.startingLength pr.initialDirection
        (Board.create pr.rows pr.cols)).2) rng 0 _ hbm
  refine ⟨hdir, rfl, rfl, ?_, ?_, ?_⟩
  · show (initSegments pr.rows pr.cols pr.startingLength pr.initialDirection).Nodup
    exact initSegments_nodup pr.rows pr.cols pr.startingLength hdir
  · exact hbijP
  · exact hfoodP

lemma initGame_NodupInv {pr : InitParams} (rng : ℕ → ℕ) (h : goodDir pr) :
    NodupInv (SnakeGameLogic.initGame pr rng) := by
  refine ⟨h, rfl, ?_⟩
  show (initSegments pr.rows pr.cols pr.startingLength pr.initialDirection).Nodup
  exact initSegments_nodup pr.rows pr.cols pr.startingLength h

end InitLemmas

section NodupTrack

lemma tickAfterChecks_NodupInv {s1 : SnakeGameLogic} {nh : Pos}
    (hcur : s1.dir.current ≠ NONE)
    (hnext : s1.dir.next = s1.dir.current)
    (hnd : s1.snake.body.Nodup)
    (hnb : nh ∉ s1.snake.body) :
    NodupInv (s1.tickAfterChecks nh).2.1 := by
  have hbody2 := SnakeGameLogic.applyFoodStep_body s1 nh
  have hdir2 := SnakeGameLogic.applyFoodStep_dir s1 nh
  have hnd2 : (s1.applyFoodStep nh).snake.body.Nodup := by rw [hbody2]; exact hnd
  have hnb2 : nh ∉ (s1.applyFoodStep nh).snake.body := by rw [hbody2]; exact hnb
  have hnd3 : (((s1.applyFoodStep nh).applyMoveStep nh)).snake.body.Nodup :=
    Snake.move_nodup hnd2 hnb2
  have hnd4 : ((((s1.applyFoodStep nh).applyMoveStep nh)).applyPlaceStep).snake.body.Nodup := by
    rw [SnakeGameLogic.applyPlaceStep_snake]
    exact hnd3
  have hdir4 : ((((s1.applyFoodStep nh).applyMoveStep nh)).applyPlaceStep).dir = s1.dir := by
    rw [SnakeGameLogic.applyPlaceStep_dir]
    exact hdir2
  unfold SnakeGameLogic.tickAfterChecks SnakeGameLogic.tickFinish
  split
  · refine ⟨?_, ?_, hnd4⟩
    · show ((((s1.applyFoodStep nh).applyMoveStep nh)).applyPlaceStep).dir.current ≠ NONE
      rw [hdir4]
      exact hcur
    · show ((((s1.applyFoodStep nh).applyMoveStep nh)).applyPlaceStep).dir.next = _
      rw [hdir4]
      exact hnext
  · refine ⟨?_, ?_, hnd4⟩
    · rw [hdir4]
      exact hcur
    · rw [hdir4]
      exact hnext

lemma update_NodupInv {s : SnakeGameLogic} (h : NodupInv s) : NodupInv (s.update).2.1 := by
  by_cases hgo : s.gameOver = true
  · rw [update_gameOver_eq hgo]
    exact h
  · have hgo2 : s.gameOver = false := by
      cases hg : s.gameOver
      · rfl
      · exact absurd hg hgo
    have hcur1 : (s.dir.processInput).current ≠ NONE :=
      DirectionController.processInput_current_ne_none h.next h.cur
    have hnext1 := DirectionController.processInput_next_eq s.dir
    unfold SnakeGameLogic.update
    rw [if_neg hgo]
    simp only []
    split_ifs with h1 h2 h3
    · exact ⟨hcur1, hnext1, h.nodup⟩
    · exact ⟨hcur1, hnext1, h.nodup⟩
    · exact ⟨hcur1, hnext1, h.nodup⟩
    · exact tickAfterChecks_NodupInv hcur1 hnext1 h.nodup (nh_not_mem_body hcur1 h3)

end NodupTrack

section ReachLemmas

lemma reaches_StateInv {s : SnakeGameLogic} (h : Reaches goodInit s) : StateInv s := by
  induction h with
  | start pr rng hpr => exact initGame_StateInv rng hpr
  | tick s hs ih => exact update_StateInv ih
  | steer s d hs ih => exact ⟨ih.cur, ih.next, ih.gp, ih.nodup, ih.bij, ih.food⟩

lemma reaches_NodupInv {s : SnakeGameLogic} (h : Reaches goodDir s) : NodupInv s := by
  induction h with
  | start pr rng hpr => exact initGame_NodupInv rng hpr
  | tick s hs ih => exact update_NodupInv ih
  | steer s d hs ih => exact ⟨ih.cur, ih.next, ih.nodup⟩

end ReachLemmas

section UpdateShape

lemma bool_eq_false {b : Bool} (h : ¬b = true) : b = false := by
  cases b
  · rfl
  · exact absurd rfl h

/-- When the tick proceeds past the three terminal checks, update is the
food/move/place/win tail. -/
lemma update_eq_tick {s : SnakeGameLogic}
    (hgo : s.gameOver = false)
    (h1 : CollisionDetector.isOutOfBounds
      ((s.dir.processInput).getNextPosition s.snake.getHead) s.board = false)
    (h2 : CollisionDetector.isWall
      ((s.dir.processInput).getNextPosition s.snake.getHead) s.board = false)
    (h3 : s.snake.checkSelfCollision
      ((s.dir.processInput).getNextPosition s.snake.getHead) = false) :
    s.update = SnakeGameLogic.tickAfterChecks { s with dir := s.dir.processInput }
      ((s.dir.processInput).getNextPosition s.snake.getHead) := by
  unfold SnakeGameLogic.update
  rw [if_neg (by rw [hgo]; simp)]
  dsimp only
  simp only [h1, h2, h3, Bool.false_eq_true, if_false]

/-- When one of the three terminal checks fires, update terminates the game
with a single terminal publish and an unchanged snake. -/
lemma update_of_checks_fail {s : SnakeGameLogic}
    (hgo : s.gameOver = false)
    (hfail : ¬(CollisionDetector.isOutOfBounds
        ((s.dir.processInput).getNextPosition s.snake.getHead) s.board = false ∧
      CollisionDetector.isWall
        ((s.dir.processInput).getNextPosition s.snake.getHead) s.board = false ∧
      s.snake.checkSelfCollision
        ((s.dir.processInput).getNextPosition s.snake.getHead) = false)) :
    s.update = (false, { s with dir := s.dir.processInput, gameOver := true },
      [SnakeGameLogic.snapshotOf { s with dir := s.dir.processInput, gameOver := true }]) := by
  unfold SnakeGameLogic.update
  rw [if_neg (by rw [hgo]; simp)]
  dsimp only
  by_cases g1 : CollisionDetector.isOutOfBounds
      ((s.dir.processInput).getNextPosition s.snake.getHead) s.board = true
  · simp only [g1, if_true]
  · have g1f := bool_eq_false g1
    simp only [g1f, Bool.false_eq_true, if_false]
    by_cases g2 : CollisionDetector.isWall
        ((s.dir.processInput).getNextPosition s.snake.getHead) s.board = true
    · simp only [g2, if_true]
    · have g2f := bool_eq_false g2
      simp only [g2f, Bool.false_eq_true, if_false]
      have g3 : s.snake.checkSelfCollision
          ((s.dir.processInput).getNextPosition s.snake.getHead) = true := by
        cases h3c : s.snake.checkSelfCollision
            ((s.dir.processInput).getNextPosition s.snake.getHead)
        · exact absurd ⟨g1f, g2f, h3c⟩ hfail
        · rfl
      simp only [g3, if_true]

/-- Every non-terminal tick publishes exactly the snapshot of its result
state, once. -/
lemma update_publishes {s : SnakeGameLogic} (h : s.gameOver = false) :
    (s.update).2.2 = [SnakeGameLogic.snapshotOf (s.update).2.1] := by
  unfold SnakeGameLogic.update
  rw [if_neg (by rw [h]; simp)]
  dsimp only
  split_ifs with h1 h2 h3
  · rfl
  · rfl
  · rfl
  · unfold SnakeGameLogic.tickAfterChecks SnakeGameLogic.tickFinish
    split
    · rfl
    · rfl

lemma tickFinish_fields (s4 : SnakeGameLogic) :
    (SnakeGameLogic.tickFinish s4).2.1.score = s4.score ∧
    (SnakeGameLogic.tickFinish s4).2.1.snake = s4.snake ∧
    (SnakeGameLogic.tickFinish s4).2.1.food = s4.food ∧
    (SnakeGameLogic.tickFinish s4).2.1.board = s4.board := by
  unfold SnakeGameLogic.tickFinish
  split
  · exact ⟨rfl, rfl, rfl, rfl⟩
  · exact ⟨rfl, rfl, rfl, rfl⟩

end UpdateShape

section Counting

lemma countSnakeCells_eq_length {b : Board} {body : List Pos}
    (hbij : cellBij b body) (hnd : body.Nodup) :
    countSnakeCells b = body.length := by
  unfold countSnakeCells cellsTagged
  have hfilter : (idxList b.rows b.cols).filter (fun p => decide (b.grid p = SNAKE)) =
      (idxList b.rows b.cols).filter (fun p => decide (b.getCellType p = SNAKE)) := by
    apply List.filter_congr
    intro p hp
    have hin : b.isInBounds p = true := mem_idxList_iff_isInBounds.mp hp
    rw [Board.getCellType_eq_grid hin]
  rw [hfilter]
  have hnodupF :
      ((idxList b.rows b.cols).filter (fun p => decide (b.getCellType p = SNAKE))).Nodup :=
    (nodup_idxList b.rows b.cols).filter _
  have hmemF : ∀ p : Pos,
      p ∈ (idxList b.rows b.cols).filter (fun p => decide (b.getCellType p = SNAKE)) ↔
        p ∈ body := by
    intro p
    rw [List.mem_filter]
    constructor
    · rintro ⟨-, hcell⟩
      exact (hbij p).mp (by simpa using hcell)
    · intro hmem
      have hcell := (hbij p).mpr hmem
      refine ⟨?_, by simpa using hcell⟩
      rw [mem_idxList_iff_isInBounds]
      exact Board.isInBounds_of_getCellType_ne_wall (by rw [hcell]; simp)
  have h1 : ((idxList b.rows b.cols).filter
      (fun p => decide (b.getCellType p = SNAKE))).toFinset = body.toFinset := by
    ext a
    simp only [List.mem_toFinset]
    exact hmemF a
  calc ((idxList b.rows b.cols).filter (fun p => decide (b.getCellType p = SNAKE))).length
      = ((idxList b.rows b.cols).filter
          (fun p => decide (b.getCellType p = SNAKE))).toFinset.card :=
        (List.toFinset_card_of_nodup hnodupF).symm
    _ = body.toFinset.card := by rw [h1]
    _ = body.length := List.toFinset_card_of_nodup hnd

end Counting

section WitnessStates

/-- A snapshot value differing only in score, payload for the publisher
evaluation. -/
def gScore (n : ℤ) : GameState :=
  { emptyGameState with score := n }

/-- A concrete already-terminal state. -/
def terminalState : SnakeGameLogic :=
  { board := Board.create 3 3
    snake := ⟨[((1 : ℤ), (1 : ℤ))], 0⟩
    food := ⟨((0 : ℤ), (0 : ℤ)), false⟩
    dir := ⟨RIGHT, RIGHT, NONE⟩
    score := 7
    pointsPerFood := 10
    gameOver := true
    rng := fun _ => 0
    rngIdx := 0 }

/-- A concrete running (non-terminal) state. -/
def runningState : SnakeGameLogic :=
  { board := Board.create 3 3
    snake := ⟨[((1 : ℤ), (1 : ℤ))], 0⟩
    food := ⟨((0 : ℤ), (0 : ℤ)), false⟩
    dir := ⟨RIGHT, RIGHT, NONE⟩
    score := 0
    pointsPerFood := 10
    gameOver := false
    rng := fun _ => 0
    rngIdx := 0 }

/-- A 1-by-2 board one tick away from the board-full win: the snake sits on
cell (0,0) and the food on cell (0,1). -/
def boardFullState : SnakeGameLogic :=
  { board := ⟨fun p => if p = ((0 : ℤ), (0 : ℤ)) then SNAKE
      else if p = ((0 : ℤ), (1 : ℤ)) then FOOD else EMPTY, 1, 2⟩
    snake := ⟨[((0 : ℤ), (0 : ℤ))], 0⟩
    food := ⟨((0 : ℤ), (1 : ℤ)), true⟩
    dir := ⟨RIGHT, RIGHT, NONE⟩
    score := 0
    pointsPerFood := 10
    gameOver := false
    rng := fun _ => 0
    rngIdx := 0 }

/-- A state whose snake is bent around a 2-by-2 square with the candidate
head landing on the tail segment (0,0). -/
def tailChaseState : SnakeGameLogic :=
  { board := ⟨fun p => if p = ((0 : ℤ), (1 : ℤ)) ∨ p = ((1 : ℤ), (1 : ℤ)) ∨
      p = ((1 : ℤ), (0 : ℤ)) ∨ p = ((0 : ℤ), (0 : ℤ)) then SNAKE else EMPTY, 3, 3⟩
    snake := ⟨[((0 : ℤ), (1 : ℤ)), ((1 : ℤ), (1 : ℤ)), ((1 : ℤ), (0 : ℤ)),
      ((0 : ℤ), (0 : ℤ))], 0⟩
    food := ⟨((2 : ℤ), (2 : ℤ)), true⟩
    dir := ⟨LEFT, LEFT, NONE⟩
    score := 0
    pointsPerFood := 10
    gameOver := false
    rng := fun _ => 0
    rngIdx := 0 }

end WitnessStates

section Claims

/-- C1: the spec claims every snapshot handed out by getState is immutable
after construction and never written by any later publish.  Evaluating the
publisher model refutes this: the constructor stores the write buffer as the
current snapshot (first conjunct), and after publishes with scores 1, 2, 3
the buffer reference taken right after the first publish (which then read
score 1, second conjunct) reads score 3, because the third publish rewrote
that same buffer (third conjunct).  The two scratch buffers rotate, so a
reader holding snapshot N observes the writes of publish N+2. -/
theorem C1_buffer_reuse :
    StatePublisher.construct.currentIsA = StatePublisher.construct.writeIsA ∧
    ((StatePublisher.construct.publish (gScore 1)).getState).score = 1 ∧
    ((((StatePublisher.construct.publish (gScore 1)).publish (gScore 2)).publish
        (gScore 3)).bufOf (StatePublisher.construct.publish (gScore 1)).getStateRef).score
      = 3 :=
  ⟨rfl, rfl, rfl⟩

/-- C4 (amended): in every state reachable through initializeBoard with a
non-None initial direction followed by any sequence of setDirection and
update calls, no two snake body segments occupy the same position. -/
theorem C4_distinct_segments (s : SnakeGameLogic) (hreach : Reaches goodDir s) :
    s.snake.body.Nodup :=
  (reaches_NodupInv hreach).nodup

/-- C4 witness: a concrete reachable state (one update after a well-formed
initialization) has pairwise distinct segments. -/
theorem C4_distinct_segments_witness :
    (((SnakeGameLogic.initGame ⟨10, 10, 3, 10, RIGHT⟩ (fun _ => 0)).update).2.1).snake.body.Nodup :=
  C4_distinct_segments _ (Reaches.tick _ (Reaches.start _ _ (by unfold goodDir; decide)))

/-- C4 counterexample: the claim as stated (for arbitrary initializeBoard
parameters) is false: with initial direction None and starting length 2,
Snake::initialize puts both segments on the start position, so the initial
state is reachable and already has two segments at the same position. -/
theorem C4_counterexample :
    Reaches anyInit (SnakeGameLogic.initGame ⟨10, 10, 2, 10, NONE⟩ (fun _ => 0)) ∧
    ¬(SnakeGameLogic.initGame ⟨10, 10, 2, 10, NONE⟩ (fun _ => 0)).snake.body.Nodup :=
  ⟨Reaches.start _ _ True.intro, by decide⟩

/-- C5: processInput takes and clears the mailbox slot, and the heading
becomes the taken value exactly when it is not NONE and passes the
180-degree reversal check against the current heading; otherwise the
heading is unchanged.  The hypothesis next = current is the class invariant
(established by the constructor and initialize, restored by every
processInput). -/
theorem C5_process_input (d : DirectionController) (h : d.next = d.current) :
    (d.processInput).atomicInput = NONE ∧
    (d.processInput).current =
      (if d.atomicInput ≠ NONE ∧
          DirectionController.isValidChange d.current d.atomicInput = true
       then d.atomicInput else d.current) :=
  ⟨DirectionController.processInput_atomicInput d,
    DirectionController.processInput_current d h⟩

/-- C5 witness: with current heading Right, setInput(Left) followed by one
processInput leaves the heading at Right and clears the mailbox. -/
theorem C5_process_input_witness :
    (((DirectionController.initDir RIGHT).setInput LEFT).processInput).current = RIGHT ∧
    (((DirectionController.initDir RIGHT).setInput LEFT).processInput).atomicInput = NONE := by
  have h := C5_process_input ((DirectionController.initDir RIGHT).setInput LEFT) rfl
  refine ⟨?_, h.1⟩
  rw [h.2]
  decide

/-- C7: on an already-terminal state, update returns false, publishes
nothing, and leaves the whole state (board, snake, food, score, heading,
random source) unchanged. -/
theorem C7_terminal_noop (s : SnakeGameLogic) (h : s.gameOver = true) :
    s.update = (false, s, []) :=
  update_gameOver_eq h

/-- C7 witness at a concrete terminal state. -/
theorem C7_terminal_noop_witness :
    terminalState.gameOver = true ∧ terminalState.update = (false, terminalState, []) :=
  ⟨rfl, C7_terminal_noop terminalState rfl⟩

/-- C8: every update call on a non-terminal state performs exactly one
publish, and the published snapshot is the snapshot of the resulting state
(the single externally observable commit point of the tick). -/
theorem C8_single_publish (s : SnakeGameLogic) (h : s.gameOver = false) :
    (s.update).2.2.length = 1 ∧
    (s.update).2.2 = [SnakeGameLogic.snapshotOf (s.update).2.1] :=
  ⟨by rw [update_publishes h]; rfl, update_publishes h⟩

/-- C8 witness at a concrete running state. -/
theorem C8_single_publish_witness :
    runningState.gameOver = false ∧ (runningState.update).2.2.length = 1 :=
  ⟨rfl, (C8_single_publish runningState rfl).1⟩

/-- C9: the spec requires initializeBoard to reject a starting snake length
exceeding the board capacity with a configuration error.  The code has no
such guard: evaluating the embedding at rows = cols = 4 and starting length
9 shows initialization proceeds (terminal flag false), lays out all 9
segments in the snake deque, yet marks only the 3 on-board cells SnakeBody,
silently corrupting the cells/segments bijection instead of rejecting. -/
theorem C9_no_rejection :
    (SnakeGameLogic.initGame ⟨4, 4, 9, 10, RIGHT⟩ (fun _ => 0)).gameOver = false ∧
    (SnakeGameLogic.initGame ⟨4, 4, 9, 10, RIGHT⟩ (fun _ => 0)).snake.body.length = 9 ∧
    countSnakeCells (SnakeGameLogic.initGame ⟨4, 4, 9, 10, RIGHT⟩ (fun _ => 0)).board = 3 :=
  ⟨rfl, rfl, by decide⟩

/-- C10: on a non-terminal state with at least two segments whose computed
candidate head equals the current tail segment position, update returns
false, marks the state terminal, leaves the snake unchanged (no move is
applied even though the tail would have vacated the cell), and publishes a
single terminal snapshot: the tail is included in the self-collision check,
only the current head being excluded. -/
theorem C10_tail_collision (s : SnakeGameLogic)
    (hgo : s.gameOver = false)
    (hlen : 2 ≤ s.snake.body.length)
    (htail : (s.dir.processInput).getNextPosition s.snake.getHead =
      s.snake.body.getLastD ((0 : ℤ), (0 : ℤ))) :
    (s.update).1 = false ∧
    (s.update).2.1.gameOver = true ∧
    (s.update).2.1.snake = s.snake ∧
    (s.update).2.2 = [SnakeGameLogic.snapshotOf (s.update).2.1] ∧
    (SnakeGameLogic.snapshotOf (s.update).2.1).gameOver = true := by
  have hfail : ¬(CollisionDetector.isOutOfBounds
      ((s.dir.processInput).getNextPosition s.snake.getHead) s.board = false ∧
    CollisionDetector.isWall
      ((s.dir.processInput).getNextPosition s.snake.getHead) s.board = false ∧
    s.snake.checkSelfCollision
      ((s.dir.processInput).getNextPosition s.snake.getHead) = false) := by
    rintro ⟨-, -, h3⟩
    have hmem : (s.dir.processInput).getNextPosition s.snake.getHead ∈ s.snake.body.drop 1 := by
      rw [htail]
      exact getLastD_mem_drop_one _ hlen
    have hc := (Snake.checkSelfCollision_iff s.snake _).mpr hmem
    rw [h3] at hc
    exact absurd hc (by simp)
  rw [update_of_checks_fail hgo hfail]
  exact ⟨rfl, rfl, rfl, rfl, rfl⟩

/-- C10 witness: a snake bent around a 2-by-2 square, heading onto its own
tail, terminates with an unchanged snake and a terminal snapshot. -/
theorem C10_tail_collision_witness :
    (tailChaseState.update).1 = false ∧
    (tailChaseState.update).2.1.gameOver = true ∧
    (tailChaseState.update).2.1.snake = tailChaseState.snake :=
  ⟨(C10_tail_collision tailChaseState rfl (by decide) (by decide)).1,
    (C10_tail_collision tailChaseState rfl (by decide) (by decide)).2.1,
    (C10_tail_collision tailChaseState rfl (by decide) (by decide)).2.2.1⟩

end Claims

section ClaimsB

/-- C3 (amended): under non-degenerate initialization (a real initial
direction and an initial layout fully on the board), after every publish
performed by initializeBoard or update the number of SnakeBody-tagged board
cells in the published snapshot equals its recorded snake length.  The head
of the list is the snapshot of the reachable state itself (the snapshot
initializeBoard publishes, and inductively the one the producing update
published); the rest are the snapshots the next update call publishes. -/
theorem C3_snakebody_cells (s : SnakeGameLogic) (hreach : Reaches goodInit s) :
    ∀ g ∈ SnakeGameLogic.snapshotOf s :: (s.update).2.2,
      countSnakeGS g = g.snakeLength := by
  intro g hg
  rcases List.mem_cons.mp hg with hc | hc
  · subst hc
    have inv := reaches_StateInv hreach
    show countSnakeCells s.board = s.snake.body.length
    exact countSnakeCells_eq_length inv.bij inv.nodup
  · by_cases hgo : s.gameOver = true
    · rw [update_gameOver_eq hgo] at hc
      simp at hc
    · rw [update_publishes (bool_eq_false hgo)] at hc
      rw [List.mem_singleton] at hc
      subst hc
      have inv2 := update_StateInv (reaches_StateInv hreach)
      show countSnakeCells (s.update).2.1.board = (s.update).2.1.snake.body.length
      exact countSnakeCells_eq_length inv2.bij inv2.nodup

/-- C3 witness: on a concrete 2-by-2 game, the snapshot published at
initialization has SnakeBody cell count equal to its snake length. -/
theorem C3_snakebody_cells_witness :
    countSnakeGS (SnakeGameLogic.snapshotOf
        (SnakeGameLogic.initGame ⟨2, 2, 1, 10, RIGHT⟩ (fun _ => 0))) =
      (SnakeGameLogic.snapshotOf
        (SnakeGameLogic.initGame ⟨2, 2, 1, 10, RIGHT⟩ (fun _ => 0))).snakeLength :=
  C3_snakebody_cells _
    (Reaches.start _ _ (by unfold goodInit; exact ⟨by decide, by decide⟩)) _
    (List.mem_cons_self _ _)

/-- C3 counterexample: the claim as stated quantifies over every
initializeBoard call.  With a 3-by-3 board and starting length 5 the layout
runs off the board: the state is reachable (empty call sequence after
initializeBoard), its published snapshot records snake length 5 but only 2
SnakeBody cells. -/
theorem C3_counterexample :
    Reaches anyInit (SnakeGameLogic.initGame ⟨3, 3, 5, 10, RIGHT⟩ (fun _ => 0)) ∧
    countSnakeGS (SnakeGameLogic.snapshotOf
        (SnakeGameLogic.initGame ⟨3, 3, 5, 10, RIGHT⟩ (fun _ => 0))) ≠
      (SnakeGameLogic.snapshotOf
        (SnakeGameLogic.initGame ⟨3, 3, 5, 10, RIGHT⟩ (fun _ => 0))).snakeLength :=
  ⟨Reaches.start _ _ True.intro, by decide⟩

/-- C6: on a non-terminal tick that passes the three terminal checks, if
after the move and the food-placement attempt no food is present and no
growth is pending (the board-full win condition), update marks the state
terminal, publishes a single terminal snapshot, and returns false. -/
theorem C6_board_full_win (s : SnakeGameLogic)
    (hgo : s.gameOver = false)
    (h1 : CollisionDetector.isOutOfBounds
      ((s.dir.processInput).getNextPosition s.snake.getHead) s.board = false)
    (h2 : CollisionDetector.isWall
      ((s.dir.processInput).getNextPosition s.snake.getHead) s.board = false)
    (h3 : s.snake.checkSelfCollision
      ((s.dir.processInput).getNextPosition s.snake.getHead) = false)
    (hnofood : (s.update).2.1.food.present = false)
    (hnogrow : ¬(s.update).2.1.snake.growthPending > 0) :
    (s.update).1 = false ∧
    (s.update).2.1.gameOver = true ∧
    (s.update).2.2 = [SnakeGameLogic.snapshotOf (s.update).2.1] ∧
    (SnakeGameLogic.snapshotOf (s.update).2.1).gameOver = true := by
  rw [update_eq_tick hgo h1 h2 h3] at hnofood hnogrow ⊢
  unfold SnakeGameLogic.tickAfterChecks at hnofood hnogrow ⊢
  set s4 := SnakeGameLogic.applyPlaceStep
      (SnakeGameLogic.applyMoveStep
        (SnakeGameLogic.applyFoodStep { s with dir := s.dir.processInput }
          ((s.dir.processInput).getNextPosition s.snake.getHead))
        ((s.dir.processInput).getNextPosition s.snake.getHead)) with hs4
  by_cases hwin : (!s4.food.present && !s4.snake.hasPendingGrowth) = true
  · have heq : SnakeGameLogic.tickFinish s4 =
        (false, { s4 with gameOver := true },
          [SnakeGameLogic.snapshotOf { s4 with gameOver := true }]) := by
      unfold SnakeGameLogic.tickFinish
      rw [if_pos hwin]
    rw [heq]
    exact ⟨rfl, rfl, rfl, rfl⟩
  · have heq : SnakeGameLogic.tickFinish s4 = (true, s4, [SnakeGameLogic.snapshotOf s4]) := by
      unfold SnakeGameLogic.tickFinish
      rw [if_neg hwin]
    rw [heq] at hnofood hnogrow
    dsimp only at hnofood hnogrow
    exfalso
    apply hwin
    rw [hnofood]
    simp [Snake.hasPendingGrowth, hnogrow]

/-- C6 witness: the 1-by-2 board whose snake eats the last food; placement
then finds no empty cell, no growth is pending, and the tick is the
board-full win. -/
theorem C6_board_full_win_witness :
    (boardFullState.update).1 = false ∧ (boardFullState.update).2.1.gameOver = true :=
  ⟨(C6_board_full_win boardFullState rfl (by decide) (by decide) (by decide)
      (by decide) (by decide)).1,
    (C6_board_full_win boardFullState rfl (by decide) (by decide) (by decide)
      (by decide) (by decide)).2.1⟩

end ClaimsB

section ClaimsC

/-- C2: in every reachable (well-initialized) non-terminal state, if the
computed candidate head equals the position of the existing food, one
update call adds exactly points-per-food to the score and exactly one
segment to the snake; if the candidate is not the food position, the snake
length is unchanged. -/
theorem C2_food_tick (s : SnakeGameLogic) (hreach : Reaches goodInit s)
    (hgo : s.gameOver = false) :
    (CollisionDetector.isFood
        ((s.dir.processInput).getNextPosition s.snake.getHead) s.food = true →
      (s.update).2.1.score = s.score + s.pointsPerFood ∧
      (s.update).2.1.snake.body.length = s.snake.body.length + 1) ∧
    (CollisionDetector.isFood
        ((s.dir.processInput).getNextPosition s.snake.getHead) s.food = false →
      (s.update).2.1.snake.body.length = s.snake.body.length) := by
  have inv := reaches_StateInv hreach
  constructor
  · intro hf
    have hf2 := hf
    unfold CollisionDetector.isFood at hf2
    rw [Bool.and_eq_true] at hf2
    obtain ⟨hp, hbeq⟩ := hf2
    have hpos : (s.dir.processInput).getNextPosition s.snake.getHead = s.food.position :=
      eq_of_beq hbeq
    have hcell : s.board.getCellType
        ((s.dir.processInput).getNextPosition s.snake.getHead) = FOOD := by
      rw [hpos]
      exact inv.food hp
    have hin : s.board.isInBounds
        ((s.dir.processInput).getNextPosition s.snake.getHead) = true :=
      Board.isInBounds_of_getCellType_ne_wall (by rw [hcell]; simp)
    have h1 : CollisionDetector.isOutOfBounds
        ((s.dir.processInput).getNextPosition s.snake.getHead) s.board = false := by
      unfold CollisionDetector.isOutOfBounds
      rw [hin]
      rfl
    have h2 : CollisionDetector.isWall
        ((s.dir.processInput).getNextPosition s.snake.getHead) s.board = false := by
      unfold CollisionDetector.isWall
      rw [hcell]
      rfl
    have hnb : (s.dir.processInput).getNextPosition s.snake.getHead ∉ s.snake.body := by
      intro hmem
      have hsn := (inv.bij _).mpr hmem
      rw [hsn] at hcell
      exact absurd hcell (by simp)
    have h3 : s.snake.checkSelfCollision
        ((s.dir.processInput).getNextPosition s.snake.getHead) = false := by
      cases h3c : s.snake.checkSelfCollision
          ((s.dir.processInput).getNextPosition s.snake.getHead)
      · rfl
      · exact absurd (List.drop_subset _ _
          ((Snake.checkSelfCollision_iff s.snake _).mp h3c)) hnb
    rw [update_eq_tick hgo h1 h2 h3]
    have hstep2 : ({ s with dir := s.dir.processInput } : SnakeGameLogic).applyFoodStep
        ((s.dir.processInput).getNextPosition s.snake.getHead) =
        { s with dir := s.dir.processInput
                 snake := s.snake.grow 1
                 score := s.score + s.pointsPerFood
                 board := (s.food.remove s.board).1
                 food := (s.food.remove s.board).2 } := by
      unfold SnakeGameLogic.applyFoodStep
      dsimp only
      rw [if_pos hf]
    unfold SnakeGameLogic.tickAfterChecks
    rw [hstep2]
    obtain ⟨hsc, hsn, -, -⟩ := tickFinish_fields
      (SnakeGameLogic.applyPlaceStep (SnakeGameLogic.applyMoveStep
        { s with dir := s.dir.processInput
                 snake := s.snake.grow 1
                 score := s.score + s.pointsPerFood
                 board := (s.food.remove s.board).1
                 food := (s.food.remove s.board).2 }
        ((s.dir.processInput).getNextPosition s.snake.getHead)))
    constructor
    · rw [hsc, SnakeGameLogic.applyPlaceStep_score]
      rfl
    · rw [hsn, SnakeGameLogic.applyPlaceStep_snake]
      have hgrow : (s.snake.grow 1).growthPending > 0 := by
        show s.snake.growthPending + 1 > 0
        rw [inv.gp]
        omega
      have hmv := (Snake.move_spec_grow (s.snake.grow 1)
        ((s.dir.processInput).getNextPosition s.snake.getHead)
        (s.food.remove s.board).1 hgrow).1
      show ((s.snake.grow 1).move
        ((s.dir.processInput).getNextPosition s.snake.getHead)
        (s.food.remove s.board).1).1.body.length = s.snake.body.length + 1
      rw [hmv]
      show ((s.dir.processInput).getNextPosition s.snake.getHead :: s.snake.body).length
        = s.snake.body.length + 1
      rw [List.length_cons]
  · intro hf
    by_cases hall : CollisionDetector.isOutOfBounds
        ((s.dir.processInput).getNextPosition s.snake.getHead) s.board = false ∧
      CollisionDetector.isWall
        ((s.dir.processInput).getNextPosition s.snake.getHead) s.board = false ∧
      s.snake.checkSelfCollision
        ((s.dir.processInput).getNextPosition s.snake.getHead) = false
    · obtain ⟨h1, h2, h3⟩ := hall
      rw [update_eq_tick hgo h1 h2 h3]
      have hstep2 : ({ s with dir := s.dir.processInput } : SnakeGameLogic).applyFoodStep
          ((s.dir.processInput).getNextPosition s.snake.getHead) =
          { s with dir := s.dir.processInput } := by
        unfold SnakeGameLogic.applyFoodStep
        dsimp only
        rw [if_neg (by rw [hf]; simp)]
      unfold SnakeGameLogic.tickAfterChecks
      rw [hstep2]
      obtain ⟨-, hsn, -, -⟩ := tickFinish_fields
        (SnakeGameLogic.applyPlaceStep (SnakeGameLogic.applyMoveStep
          { s with dir := s.dir.processInput }
          ((s.dir.processInput).getNextPosition s.snake.getHead)))
      rw [hsn, SnakeGameLogic.applyPlaceStep_snake]
      have hnogrow : ¬s.snake.growthPending > 0 := by
        rw [inv.gp]
        omega
      have hmv := (Snake.move_spec_nogrow s.snake
        ((s.dir.processInput).getNextPosition s.snake.getHead) s.board hnogrow).1
      show (s.snake.move
        ((s.dir.processInput).getNextPosition s.snake.getHead) s.board).1.body.length
        = s.snake.body.length
      rw [hmv, List.length_dropLast, List.length_cons]
      omega
    · rw [update_of_checks_fail hgo hall]

end ClaimsC

/-- A 3-by-3 game whose first tick is a food hit: the random stream puts
the food at (0,1) and the initial heading UP moves the head there. -/
def foodTickState : SnakeGameLogic :=
  SnakeGameLogic.initGame ⟨3, 3, 1, 10, UP⟩ (fun _ => 1)

/-- C2 witness: on the concrete food-hit state the candidate head is the
food position, and the tick adds exactly points-per-food to the score and
exactly one segment to the snake. -/
theorem C2_food_tick_witness :
    CollisionDetector.isFood
      ((foodTickState.dir.processInput).getNextPosition foodTickState.snake.getHead)
      foodTickState.food = true ∧
    ((foodTickState.update).2.1.score = foodTickState.score + foodTickState.pointsPerFood ∧
      (foodTickState.update).2.1.snake.body.length = foodTickState.snake.body.length + 1) :=
  ⟨by decide,
    (C2_food_tick foodTickState
      (Reaches.start _ _ (by unfold goodInit; exact ⟨by decide, by decide⟩)) rfl).1
      (by decide)⟩

end SnakeGame
